import Mathlib

/-!
Verification development for the escanor in-memory multi-model database
(`src/bin/server/db.rs`).  The global `DashMap` stores are modelled as
association lists with string keys; every command handler of `db.rs` is
translated into a pure state transformer on a `DB` record.  External
library calls (serde_json parsing, json_dotpath, the geohash crate,
util::merge) live outside `src/` and are either taken as oracle inputs or
modelled from the spec, as marked in the doc comments.
-/

set_option maxHeartbeats 1000000

/-! ### Association-list maps (model of `DashMap<String, V>`) -/

/-- Lookup in an association-list map (model of `DashMap::get`). -/
def lookupA {V : Type} : List (String × V) → String → Option V
  | [], _ => none
  | p :: t, key => if p.1 = key then some p.2 else lookupA t key

/-- Insert-or-replace (model of `DashMap::insert`): replaces the entry in
place when the key is present, appends otherwise. -/
def insertA {V : Type} : List (String × V) → String → V → List (String × V)
  | [], key, v => [(key, v)]
  | p :: t, key, v => if p.1 = key then (key, v) :: t else p :: insertA t key v

/-- Removal (model of `DashMap::remove`). -/
def removeA {V : Type} : List (String × V) → String → List (String × V)
  | [], _ => []
  | p :: t, key => if p.1 = key then removeA t key else p :: removeA t key

/-- The key set of an association list. -/
def keysOf {V : Type} (m : List (String × V)) : List String :=
  m.map Prod.fst







/-- Model of `DashSet::insert` on a list of strings. -/
def dashset_insert (l : List String) (s : String) : List String :=
  if s ∈ l then l else s :: l

/-! ### i64 arithmetic and formatting

`db.rs` stores `i64` integers and adds them with plain `+`; the model uses
`Int` with an explicit two's-complement wrap at the additions, matching
release-mode Rust overflow semantics. -/

/-- The i64 range. -/
def InI64 (x : Int) : Prop := -(2 ^ 63) ≤ x ∧ x < 2 ^ 63

instance (x : Int) : Decidable (InI64 x) := by unfold InI64; infer_instance

/-- Two's-complement wrap of an integer into the i64 range. -/
def wrap64 (x : Int) : Int := (x + 2 ^ 63) % 2 ^ 64 - 2 ^ 63


/-- The numeric value of an ASCII digit, `none` for other characters. -/
def digitVal (c : Char) : Option Nat :=
  if 48 ≤ c.toNat ∧ c.toNat ≤ 57 then some (c.toNat - 48) else none

/-- Accumulate decimal digits; fails on any non-digit character. -/
def digitsAux : List Char → Nat → Option Nat
  | [], acc => some acc
  | c :: t, acc =>
    match digitVal c with
    | none => none
    | some d => digitsAux t (acc * 10 + d)

/-- Decimal reading of a nonempty run of digits. -/
def digitsToNat : List Char → Option Nat
  | [] => none
  | c :: t => digitsAux (c :: t) 0

/-- Model of Rust `str::parse::<i64>`: an optional sign followed by at
least one decimal digit, rejecting values outside the i64 range. -/
def parseI64 (s : String) : Option Int :=
  let p : Int × List Char :=
    match s.data with
    | '+' :: r => (1, r)
    | '-' :: r => (-1, r)
    | r => (1, r)
  match digitsToNat p.2 with
  | none => none
  | some m =>
    let v : Int := p.1 * (m : Int)
    if InI64 v then some v else none


/-- Model of Rust `i64::to_string` (canonical decimal form). -/
def i64ToString (i : Int) : String := toString i

/-! ### JSON values (model of `serde_json::Value`)

Numbers are modelled as integers; floating-point payloads are not needed by
any claim settled against the JSON store. -/

inductive JsonVal : Type where
  | null : JsonVal
  | bool (b : Bool) : JsonVal
  | num (n : Int) : JsonVal
  | str (s : String) : JsonVal
  | arr (elems : List JsonVal) : JsonVal
  | obj (fields : List (String × JsonVal)) : JsonVal

/-- Model of `Value::is_null`. -/
def JsonVal.isNull : JsonVal → Bool
  | JsonVal.null => true
  | _ => false

/-- Split a character list at every dot. -/
def splitDots : List Char → List (List Char)
  | [] => [[]]
  | c :: t =>
    if c = '.' then [] :: splitDots t
    else
      match splitDots t with
      | h :: r => (c :: h) :: r
      | [] => [[c]]

/-- Dotted-path segmentation (model of splitting on the `.` separator). -/
def splitPath (p : String) : List String :=
  (splitDots p.data).map (fun l => String.mk l)

/-- Numeric path segment (array index). -/
def parseIdx (s : String) : Option Nat := digitsToNat s.data

/-- Modelled from the spec: the `json_dotpath` crate's `dot_set` (external
to `src/`): walks `.`-separated segments, integer segments indexing or
appending to arrays, other segments indexing objects, creating missing
containers along the way; fails on a type mismatch. -/
def dotSetSegs : List String → JsonVal → JsonVal → Option JsonVal
  | [], _, v => some v
  | seg :: rest, cur, v =>
    match cur with
    | JsonVal.obj fields =>
      let child :=
        match lookupA fields seg with
        | some c => c
        | none => JsonVal.null
      match dotSetSegs rest child v with
      | some nv => some (JsonVal.obj (insertA fields seg nv))
      | none => none
    | JsonVal.arr elems =>
      match parseIdx seg with
      | none => none
      | some i =>
        if i < elems.length then
          match dotSetSegs rest (elems.getD i JsonVal.null) v with
          | some nv => some (JsonVal.arr (elems.set i nv))
          | none => none
        else if i = elems.length then
          match dotSetSegs rest JsonVal.null v with
          | some nv => some (JsonVal.arr (elems ++ [nv]))
          | none => none
        else none
    | JsonVal.null =>
      match parseIdx seg with
      | some 0 =>
        match dotSetSegs rest JsonVal.null v with
        | some nv => some (JsonVal.arr [nv])
        | none => none
      | some _ => none
      | none =>
        match dotSetSegs rest JsonVal.null v with
        | some nv => some (JsonVal.obj [(seg, nv)])
        | none => none
    | _ => none

/-- Modelled from the spec: `dot_set` on a whole dotted path. -/
def dot_set (doc : JsonVal) (path : String) (v : JsonVal) : Option JsonVal :=
  dotSetSegs (splitPath path) doc v

mutual

/-- Structural depth of a JSON document. -/
def jsonDepth : JsonVal → Nat
  | JsonVal.arr l => jsonListDepth l + 1
  | JsonVal.obj l => jsonFieldsDepth l + 1
  | _ => 1

/-- Depth of a list of JSON documents. -/
def jsonListDepth : List JsonVal → Nat
  | [] => 0
  | a :: t => max (jsonDepth a) (jsonListDepth t)

/-- Depth of a list of JSON object fields. -/
def jsonFieldsDepth : List (String × JsonVal) → Nat
  | [] => 0
  | p :: t => max (jsonDepth p.2) (jsonFieldsDepth t)

end

/-- Fuel-bounded deep merge; the fuel only bounds the recursion depth. -/
def mergeJsonF : Nat → JsonVal → JsonVal → JsonVal
  | 0, v, _ => v
  | fuel + 1, JsonVal.obj a, JsonVal.obj b =>
    JsonVal.obj (b.foldl
      (fun acc q =>
        match lookupA acc q.1 with
        | none => acc ++ [q]
        | some av => insertA acc q.1 (mergeJsonF fuel av q.2)) a)
  | _ + 1, v, _ => v

/-- Modelled from the spec: `util::merge` (external to `src/`) deep-merges
the previous document into the new one, the new value winning at
conflicts. -/
def mergeJson (v prev : JsonVal) : JsonVal := mergeJsonF (jsonDepth prev) v prev

/-! ### Geo points -/

/-- Modelled from the spec: the geohash string derived from the
coordinates at insertion (the external geohash crate); the exact encoding
is never inspected by a claim, only carried. -/
def geohashOf (lat lng : Rat) : String :=
  "gh:" ++ toString lat.num ++ ":" ++ toString lng.num

/-- Model of `GeoPoint2D` (crate `geo`, external to `src/`): a tagged
2-D point carrying its derived geohash.  Set membership in
`HashSet<GeoPoint2D>` is by `tag` alone, which the store operations
below implement directly. -/
structure GeoPoint2D where
  tag : String
  lat : Rat
  lng : Rat
  hash : String
deriving DecidableEq

/-- Model of `GeoPoint2D::with_cord`. -/
def with_cord (tag : String) (lat lng : Rat) : GeoPoint2D :=
  { tag := tag, lat := lat, lng := lng, hash := geohashOf lat lng }

/-- Model of `HashSet<GeoPoint2D>::insert`: tag is the identity, and an
already-present tag keeps the stored point (Rust `HashSet::insert` does
not replace). -/
def hsInsert (s : List GeoPoint2D) (p : GeoPoint2D) : List GeoPoint2D :=
  if s.any (fun q => q.tag == p.tag) then s else s ++ [p]

/-- Model of `HashSet<GeoPoint2D>::remove` by tag. -/
def hsRemove (s : List GeoPoint2D) (tag : String) : List GeoPoint2D :=
  s.filter (fun p => ! (p.tag == tag))

/-! ### Core store state (`db.rs` data model) -/

inductive ESValue : Type where
  | String (s : String) : ESValue
  | Int (i : Int) : ESValue
deriving DecidableEq

inductive KeyType : Type where
  | KV : KeyType
  | JSON : KeyType
  | GEO : KeyType
deriving DecidableEq

/-- Replies, abstracting the `printer` collaborator: `print_ok`,
`print_err`, `print_wrong_type_err`, `print_integer`, `print_string`. -/
inductive Reply : Type where
  | ok : Reply
  | wrongType : Reply
  | err (msg : String) : Reply
  | int (i : Int) : Reply
  | str (s : String) : Reply
deriving DecidableEq

/-- The global stores of `db.rs` gathered into one record:
`KEYS_MAP`, `KV_BTREE`, `JSON_BTREE`, `GEO_BTREE`, `GEO_RTREE`,
`KEYS_REM_EX_HASH`, `DELETED_KEYS_LIST`, `MUTATION_COUNT_SINCE_SAVE`.
The R-tree is modelled by the list of points it was bulk-loaded from. -/
structure DB where
  keys_map : List (String × KeyType)
  kv_btree : List (String × ESValue)
  json_btree : List (String × JsonVal)
  geo_btree : List (String × List GeoPoint2D)
  geo_rtree : List (String × List GeoPoint2D)
  keys_rem_ex_hash : List (String × Int)
  deleted_keys_list : List String
  mutation_count : Nat

/-- The freshly initialised database. -/
def emptyDB : DB :=
  { keys_map := [], kv_btree := [], json_btree := [], geo_btree := [],
    geo_rtree := [], keys_rem_ex_hash := [], deleted_keys_list := [],
    mutation_count := 0 }

/-- Model of `is_key_valid_for_type`. -/
def is_key_valid_for_type (db : DB) (key : String) (t : KeyType) : Bool :=
  match lookupA db.keys_map key with
  | none => true
  | some u => decide (u = t)

/-- Model of `insert_key`. -/
def insert_key (key : String) (t : KeyType) (db : DB) : DB :=
  { db with keys_map := insertA db.keys_map key t }

/-- Model of `remove_key`. -/
def remove_key (key : String) (db : DB) : DB :=
  { db with keys_map := removeA db.keys_map key }

/-! ### Command handlers (`db.rs`) -/

/-- Model of `set` (`SET K V [EX seconds]`): registers the expiry when
`EX > 0`, then unconditionally stores and claims the key as KV; `now` is
the current epoch second passed explicitly. -/
def set (key : String) (v : ESValue) (exp : Nat) (now : Int) (db : DB) : Reply × DB :=
  let db1 :=
    if 0 < exp then
      { db with keys_rem_ex_hash := insertA db.keys_rem_ex_hash key ((exp : Int) + now) }
    else db
  let db2 := { db1 with kv_btree := insertA db1.kv_btree key v }
  let db3 := insert_key key KeyType.KV db2
  (Reply.ok, { db3 with mutation_count := db3.mutation_count + 1 })

/-- Model of `get_set` (`GETSET K V`). -/
def get_set (key : String) (v : ESValue) (db : DB) : Reply × DB :=
  if is_key_valid_for_type db key KeyType.KV then
    let prev := lookupA db.kv_btree key
    let db1 := { db with kv_btree := insertA db.kv_btree key v }
    match prev with
    | none =>
      let db2 := insert_key key KeyType.KV db1
      (Reply.str "", { db2 with mutation_count := db2.mutation_count + 1 })
    | some (ESValue.String s) =>
      let db2 := insert_key key KeyType.KV db1
      (Reply.str s, { db2 with mutation_count := db2.mutation_count + 1 })
    | some (ESValue.Int _) =>
      (Reply.err "ERR value is not a string", insert_key key KeyType.KV db1)
  else (Reply.wrongType, db)

/-- Model of `del` (`DEL K`). -/
def del (key : String) (db : DB) : Reply × DB :=
  if is_key_valid_for_type db key KeyType.KV then
    match lookupA db.kv_btree key with
    | some _ =>
      let db1 := { db with kv_btree := removeA db.kv_btree key }
      let db2 := remove_key key db1
      let db3 :=
        { db2 with deleted_keys_list := dashset_insert db2.deleted_keys_list key }
      (Reply.ok, { db3 with mutation_count := db3.mutation_count + 1 })
    | none => (Reply.err "KEY_NOT_FOUND", remove_key key db)
  else (Reply.wrongType, db)

/-- Model of `ttl` (`TTL K`): read-only. -/
def ttl (key : String) (db : DB) : Reply :=
  if is_key_valid_for_type db key KeyType.KV then
    let out : Int := if (lookupA db.kv_btree key).isNone then -1 else 0
    match lookupA db.keys_rem_ex_hash key with
    | none => Reply.int (out + -1)
    | some t => Reply.int t
  else Reply.int (-1)

/-- Model of `incr_by` (`INCRBY K n`); i64 sums wrap. -/
def incr_by (key : String) (n : Int) (db : DB) : Reply × DB :=
  if is_key_valid_for_type db key KeyType.KV then
    match lookupA db.kv_btree key with
    | none =>
      (Reply.int n, { db with kv_btree := insertA db.kv_btree key (ESValue.Int n) })
    | some (ESValue.String s) =>
      match parseI64 s with
      | some d =>
        let nv := wrap64 (d + n)
        (Reply.str (i64ToString nv),
         { db with kv_btree := insertA db.kv_btree key (ESValue.String (i64ToString nv)) })
      | none => (Reply.err "ERR string cannot be represented as integer", db)
    | some (ESValue.Int i) =>
      let nv := wrap64 (i + n)
      (Reply.int nv, { db with kv_btree := insertA db.kv_btree key (ESValue.Int nv) })
  else (Reply.wrongType, db)

/-- Model of `jset_raw` (`JSET.RAW K json-text`); the serde_json parse of
the argument text (an external library call) is passed as its result. -/
def jset_raw (key : String) (parsed : Option JsonVal) (db : DB) : Reply × DB :=
  match parsed with
  | none => (Reply.err "ERR invalid json", db)
  | some v =>
    (Reply.ok,
     { db with json_btree := insertA db.json_btree key v,
               mutation_count := db.mutation_count + 1 })

/-- Model of `jset` (`JSET K (path, value)...`). -/
def jset (key : String) (items : List (String × JsonVal)) (db : DB) : Reply × DB :=
  if is_key_valid_for_type db key KeyType.JSON then
    match lookupA db.json_btree key with
    | none =>
      let r := items.foldl
        (fun acc q =>
          match dot_set acc.1 q.1 q.2 with
          | some d => (d, acc.2)
          | none => (acc.1, acc.2 + 1))
        (JsonVal.null, (0 : Nat))
      if 0 < r.2 then (Reply.err "Error Saving values", db)
      else
        let db1 := { db with json_btree := insertA db.json_btree key r.1 }
        let db2 := insert_key key KeyType.JSON db1
        (Reply.ok, { db2 with mutation_count := db2.mutation_count + 1 })
    | some j =>
      let r := items.foldl
        (fun acc q =>
          match dot_set acc.1 q.1 q.2 with
          | some d => (d, acc.2)
          | none => (acc.1, acc.2 + 1))
        (j, (0 : Nat))
      let db1 := { db with json_btree := insertA db.json_btree key r.1 }
      if 0 < r.2 then (Reply.err "Error some values", db1)
      else (Reply.ok, { db1 with mutation_count := db1.mutation_count + 1 })
  else (Reply.wrongType, db)

/-- Model of `jmerge` (`JMERGE K json-text`); the family check is against
GEO, exactly as in the source. -/
def jmerge (key : String) (parsed : Option JsonVal) (db : DB) : Reply × DB :=
  if is_key_valid_for_type db key KeyType.GEO then
    match parsed with
    | none => (Reply.err "ERR invalid json", db)
    | some value =>
      let prev :=
        match lookupA db.json_btree key with
        | none => JsonVal.null
        | some v => v
      if prev.isNull then
        (Reply.ok,
         { db with json_btree := insertA db.json_btree key value,
                   mutation_count := db.mutation_count + 1 })
      else
        let merged := mergeJson value prev
        let db1 := { db with json_btree := insertA db.json_btree key merged }
        let db2 := insert_key key KeyType.JSON db1
        (Reply.ok, { db2 with mutation_count := db2.mutation_count + 1 })
  else (Reply.wrongType, db)

/-- Model of `jdel` (`JDEL K`). -/
def jdel (key : String) (db : DB) : Reply × DB :=
  (Reply.ok,
   { db with json_btree := removeA db.json_btree key,
             keys_map := removeA db.keys_map key })

/-- Model of `geo_add` (`GEOADD K (lat, lng, tag)...`). -/
def geo_add (key : String) (items : List (Rat × Rat × String)) (db : DB) : Reply × DB :=
  if is_key_valid_for_type db key KeyType.GEO then
    let base : List GeoPoint2D :=
      match lookupA db.geo_btree key with
      | some p => p
      | none => []
    let pm := items.foldl
      (fun acc q => hsInsert acc (with_cord q.2.2 q.1 q.2.1)) base
    let db1 := { db with geo_btree := insertA db.geo_btree key pm,
                         geo_rtree := insertA db.geo_rtree key pm }
    let db2 := insert_key key KeyType.GEO db1
    (Reply.ok, { db2 with mutation_count := db2.mutation_count + 1 })
  else (Reply.wrongType, db)

/-- Model of `geo_remove` (`GEOREM K tag...`). -/
def geo_remove (key : String) (tags : List String) (db : DB) : Reply × DB :=
  if (lookupA db.geo_rtree key).isSome && (lookupA db.geo_btree key).isSome then
    match lookupA db.geo_btree key with
    | none => (Reply.err "KEY_NOT_FOUND", db)
    | some pts =>
      let remaining := tags.foldl (fun s t => hsRemove s t) pts
      if remaining.isEmpty then
        let db1 := { db with geo_btree := removeA db.geo_btree key,
                             geo_rtree := removeA db.geo_rtree key }
        let db2 := remove_key key db1
        (Reply.ok, { db2 with mutation_count := db2.mutation_count + 1 })
      else
        let db1 := { db with geo_btree := insertA db.geo_btree key remaining,
                             geo_rtree := insertA db.geo_rtree key remaining }
        (Reply.ok, { db1 with mutation_count := db1.mutation_count + 1 })
  else (Reply.err "KEY_NOT_FOUND", db)

/-- Model of `geo_del` (`GEODEL K`). -/
def geo_del (key : String) (db : DB) : Reply × DB :=
  if (lookupA db.geo_rtree key).isSome && (lookupA db.geo_btree key).isSome then
    let db1 := { db with geo_btree := removeA db.geo_btree key,
                         geo_rtree := removeA db.geo_rtree key }
    let db2 := remove_key key db1
    (Reply.ok, { db2 with mutation_count := db2.mutation_count + 1 })
  else (Reply.err "KEY_NOT_FOUND", db)

/-- Model of `clear_db`: bumps the mutation counter by every store's size
and clears everything. -/
def clear_db (db : DB) : DB :=
  { keys_map := [], kv_btree := [], json_btree := [], geo_btree := [],
    geo_rtree := [], keys_rem_ex_hash := [], deleted_keys_list := [],
    mutation_count := db.mutation_count + db.kv_btree.length
      + db.keys_rem_ex_hash.length + db.geo_rtree.length
      + db.geo_btree.length + db.json_btree.length }

/-- Model of `flush_db` (`FLUSHDB`): the source spawns `clear_db` as a
task; the model applies it directly. -/
def flush_db (db : DB) : Reply × DB := (Reply.ok, clear_db db)

/-- Model of `insert_key_with_deletion`: on a family mismatch, first
deletes the key from the two other families, then claims it. -/
def insert_key_with_deletion (key : String) (t : KeyType) (db : DB) : DB :=
  let db1 :=
    if is_key_valid_for_type db key t then db
    else
      match t with
      | KeyType.KV => (geo_del key (jdel key db).2).2
      | KeyType.JSON => (geo_del key (del key db).2).2
      | KeyType.GEO => (jdel key (del key db).2).2
  insert_key key t db1

/-! ### Snapshot engine -/

/-- The snapshot envelope (`Database` in `db.rs`): the three value stores,
without the spatial index. -/
structure Database where
  btree : List (String × ESValue)
  json_btree : List (String × JsonVal)
  geo_tree : List (String × List GeoPoint2D)

/-- Model of `save_db`: the logical copy serialized to disk.  The file
write, counter reset and `last_save_time` update are I/O effects outside
the stores. -/
def save_db (db : DB) : Database :=
  { btree := db.kv_btree, json_btree := db.json_btree, geo_tree := db.geo_btree }

/-- One loaded geo entry: store the point set, then claim the key. -/
def geo_load_step (db : DB) (p : String × List GeoPoint2D) : DB :=
  insert_key_with_deletion p.1 KeyType.GEO
    { db with geo_btree := insertA db.geo_btree p.1 p.2 }

/-- One loaded JSON entry. -/
def json_load_step (db : DB) (p : String × JsonVal) : DB :=
  insert_key_with_deletion p.1 KeyType.JSON
    { db with json_btree := insertA db.json_btree p.1 p.2 }

/-- One loaded KV entry. -/
def kv_load_step (db : DB) (p : String × ESValue) : DB :=
  insert_key_with_deletion p.1 KeyType.KV
    { db with kv_btree := insertA db.kv_btree p.1 p.2 }

/-- Rebuild one spatial index entry by bulk-loading the point set. -/
def rtree_load_step (db : DB) (p : String × List GeoPoint2D) : DB :=
  { db with geo_rtree := insertA db.geo_rtree p.1 p.2 }

/-- Model of `load_db`: restore geo, JSON and KV entries in that order,
then bulk-load a spatial index for every geo key. -/
def load_db (saved : Database) (db : DB) : DB :=
  let db1 := saved.geo_tree.foldl geo_load_step db
  let db2 := saved.json_btree.foldl json_load_step db1
  let db3 := saved.btree.foldl kv_load_step db2
  db3.geo_btree.foldl rtree_load_step db3

/-! ### Invariants and operation sequences -/

/-- The single-family invariant over the four relevant stores: a directory
entry names a family exactly when that family's store holds the key.
Since the directory is a map, this also gives "at most one store holds any
key". -/
def I1core (d : List (String × KeyType)) (a : List (String × ESValue))
    (b : List (String × JsonVal)) (c : List (String × List GeoPoint2D)) : Prop :=
  ∀ k : String,
    (lookupA d k = some KeyType.KV ↔ (lookupA a k).isSome = true) ∧
    (lookupA d k = some KeyType.JSON ↔ (lookupA b k).isSome = true) ∧
    (lookupA d k = some KeyType.GEO ↔ (lookupA c k).isSome = true)

/-- Invariant I1 of the spec, on a database state. -/
def I1 (db : DB) : Prop :=
  I1core db.keys_map db.kv_btree db.json_btree db.geo_btree

/-- Invariants I2/I3 of the spec: the spatial index and the point-set map
agree on every key, entry for entry. -/
def GeoSync (db : DB) : Prop :=
  ∀ k : String, lookupA db.geo_rtree k = lookupA db.geo_btree k

/-- A geo-store mutating command. -/
inductive GeoOp : Type where
  | add (key : String) (items : List (Rat × Rat × String)) : GeoOp
  | rem (key : String) (tags : List String) : GeoOp
  | del (key : String) : GeoOp

/-- Run one geo command, keeping only the state. -/
def applyGeoOp (db : DB) (op : GeoOp) : DB :=
  match op with
  | GeoOp.add k items => (geo_add k items db).2
  | GeoOp.rem k tags => (geo_remove k tags db).2
  | GeoOp.del k => (geo_del k db).2

/-- Run a sequence of geo commands. -/
def applyGeoOps (ops : List GeoOp) (db : DB) : DB :=
  ops.foldl applyGeoOp db

/-! ### Concrete states used by witnesses and counterexamples -/

/-- A state whose key `k` is JSON-classified, built by a JSET. -/
def dbJsonK : DB := (jset "k" [("a", JsonVal.str "v")] emptyDB).2

/-- A state whose key `g` is GEO-classified, built by a GEOADD. -/
def dbGeoK : DB := (geo_add "g" [((1 : Rat), (2 : Rat), "p")] emptyDB).2

/-- KV key `k` holding the maximal i64. -/
def dbMax : DB := (set "k" (ESValue.Int 9223372036854775807) 0 0 emptyDB).2

/-- KV key `k` holding the non-canonical numeric text "007". -/
def db007 : DB := (set "k" (ESValue.String "007") 0 0 emptyDB).2

/-- KV key `k` holding the integer 5. -/
def dbInt5 : DB := (set "k" (ESValue.Int 5) 0 0 emptyDB).2

/-- A state with `k` present in both the KV and the JSON store (reachable
because neither `set` nor `jset_raw` consults the keyspace directory). -/
def dbOverlap : DB :=
  (jset_raw "k" (some (JsonVal.num 3)) (set "k" (ESValue.Int 1) 0 0 emptyDB).2).2

/-- KV key `a` with an absolute expiry entry of 42, set via `SET a v EX 1`
at epoch 41. -/
def dbExpiry : DB := (set "a" (ESValue.String "1") 1 41 emptyDB).2

/-- A disjoint three-store state for the round-trip witness. -/
def dbDisjoint : DB :=
  { keys_map := [("a", KeyType.KV), ("b", KeyType.JSON), ("g", KeyType.GEO)],
    kv_btree := [("a", ESValue.Int 1)],
    json_btree := [("b", JsonVal.num 2)],
    geo_btree := [("g", [with_cord "p" 1 2])],
    geo_rtree := [("g", [with_cord "p" 1 2])],
    keys_rem_ex_hash := [], deleted_keys_list := [], mutation_count := 0 }

/-! ### Helper lemmas -/

theorem lookupA_insertA {V : Type} (m : List (String × V)) (k q : String) (v : V) :
    lookupA (insertA m k v) q = if k = q then some v else lookupA m q := by
  induction m with
  | nil =>
    simp only [insertA, lookupA]
  | cons p t ih =>
    simp only [insertA]
    by_cases h : p.1 = k
    · rw [if_pos h]
      simp only [lookupA]
      by_cases hq : k = q
      · rw [if_pos hq, if_pos hq]
      · rw [if_neg hq, if_neg hq]
        rw [if_neg (by rw [h]; exact hq)]
    · rw [if_neg h]
      simp only [lookupA]
      by_cases hp : p.1 = q
      · have hkq : ¬ k = q := fun hk => h (by rw [hk, hp])
        simp only [if_pos hp, if_neg hkq]
      · simp only [if_neg hp]
        exact ih


theorem lookupA_removeA {V : Type} (m : List (String × V)) (k q : String) :
    lookupA (removeA m k) q = if k = q then none else lookupA m q := by
  induction m with
  | nil => simp [removeA, lookupA]
  | cons p t ih =>
    simp only [removeA]
    by_cases h : p.1 = k
    · rw [if_pos h]
      by_cases hq : k = q
      · rw [ih, if_pos hq, if_pos hq]
      · rw [ih, if_neg hq, if_neg hq]
        simp only [lookupA]
        rw [if_neg (by rw [h]; exact hq)]
    · rw [if_neg h]
      simp only [lookupA]
      by_cases hp : p.1 = q
      · have hkq : ¬ k = q := fun hk => h (by rw [hk, hp])
        simp only [if_pos hp, if_neg hkq]
      · simp only [if_neg hp]
        exact ih


theorem insertA_append_of_none {V : Type} (m : List (String × V)) (k : String) (v : V)
    (h : lookupA m k = none) : insertA m k v = m ++ [(k, v)] := by
  induction m with
  | nil => simp [insertA]
  | cons p t ih =>
    by_cases hp : p.1 = k
    · simp [lookupA, hp] at h
    · simp only [lookupA, hp, if_false] at h
      simp [insertA, hp, ih h]


theorem insertA_eq_self {V : Type} (m : List (String × V)) (k : String) (v : V)
    (h : lookupA m k = some v) : insertA m k v = m := by
  induction m with
  | nil => simp [lookupA] at h
  | cons p t ih =>
    by_cases hp : p.1 = k
    · simp [lookupA, hp] at h
      simp only [insertA, if_pos hp]
      rw [← hp, ← h]
    · simp only [lookupA, hp, if_false] at h
      simp [insertA, hp, ih h]


theorem lookupA_append_of_none {V : Type} (a b : List (String × V)) (k : String)
    (h : lookupA a k = none) : lookupA (a ++ b) k = lookupA b k := by
  induction a with
  | nil => simp
  | cons p t ih =>
    by_cases hp : p.1 = k
    · simp [lookupA, hp] at h
    · simp only [lookupA, hp, if_false] at h
      simp only [List.cons_append, lookupA, hp, if_false]
      exact ih h


theorem lookupA_eq_none_iff {V : Type} (m : List (String × V)) (k : String) :
    lookupA m k = none ↔ k ∉ keysOf m := by
  induction m with
  | nil => simp [lookupA, keysOf]
  | cons p t ih =>
    simp only [lookupA, keysOf, List.map_cons, List.mem_cons]
    by_cases hp : p.1 = k
    · simp [hp]
    · have hk : ¬ k = p.1 := fun h2 => hp h2.symm
      rw [if_neg hp, ih]
      simp [keysOf, hk]


theorem wrap64_eq_self (x : Int) (h : InI64 x) : wrap64 x = x := by
  obtain ⟨h1, h2⟩ := h
  unfold wrap64
  have hlo : (0 : Int) ≤ x + 2 ^ 63 := by omega
  have hhi : x + 2 ^ 63 < 2 ^ 64 := by omega
  rw [Int.emod_eq_of_lt hlo hhi]
  omega


theorem parseI64_range (s : String) (d : Int) (h : parseI64 s = some d) : InI64 d := by
  unfold parseI64 at h
  set p : Int × List Char :=
    match s.data with
    | '+' :: r => ((1 : Int), r)
    | '-' :: r => ((-1 : Int), r)
    | r => ((1 : Int), r) with hp
  rcases hm : digitsToNat p.2 with _ | m
  · simp [hm] at h
  · simp only [hm] at h
    by_cases hr : InI64 (p.1 * (m : Int))
    · simp only [hr, if_true, Option.some.injEq] at h
      exact h ▸ hr
    · simp [hr] at h

theorem keysOf_cons {V : Type} (p : String × V) (t : List (String × V)) :
    keysOf (p :: t) = p.1 :: keysOf t := rfl

theorem keysOf_append {V : Type} (a b : List (String × V)) :
    keysOf (a ++ b) = keysOf a ++ keysOf b := by
  simp [keysOf]

theorem keysOf_mapval {W V : Type} (f : String × W → V) (L : List (String × W)) :
    keysOf (L.map (fun p => (p.1, f p))) = keysOf L := by
  induction L with
  | nil => rfl
  | cons p t ih =>
    simp only [keysOf, List.map_cons] at ih ⊢
    rw [ih]

theorem is_key_valid_iff (db : DB) (k : String) (t : KeyType) :
    is_key_valid_for_type db k t = true ↔
      (lookupA db.keys_map k = none ∨ lookupA db.keys_map k = some t) := by
  unfold is_key_valid_for_type
  rcases h : lookupA db.keys_map k with _ | u
  · simp
  · simp [h]

theorem I1core_claim_KV (d : List (String × KeyType)) (a : List (String × ESValue))
    (b : List (String × JsonVal)) (c : List (String × List GeoPoint2D))
    (k : String) (v : ESValue) (h : I1core d a b c)
    (hd : lookupA d k = none ∨ lookupA d k = some KeyType.KV) :
    I1core (insertA d k KeyType.KV) (insertA a k v) b c := by
  intro q
  obtain ⟨h1, h2, h3⟩ := h q
  obtain ⟨g1, g2, g3⟩ := h k
  by_cases hq : k = q
  · subst hq
    have e1 : lookupA (insertA d k KeyType.KV) k = some KeyType.KV := by
      rw [lookupA_insertA, if_pos rfl]
    have e2 : lookupA (insertA a k v) k = some v := by
      rw [lookupA_insertA, if_pos rfl]
    rw [e1, e2]
    refine ⟨by simp, ?_, ?_⟩
    · constructor
      · intro h5; simp at h5
      · intro hb
        have hj := g2.mpr hb
        rcases hd with hd | hd <;> rw [hd] at hj <;> simp at hj
    · constructor
      · intro h5; simp at h5
      · intro hc
        have hj := g3.mpr hc
        rcases hd with hd | hd <;> rw [hd] at hj <;> simp at hj
  · have e1 : lookupA (insertA d k KeyType.KV) q = lookupA d q := by
      rw [lookupA_insertA, if_neg hq]
    have e2 : lookupA (insertA a k v) q = lookupA a q := by
      rw [lookupA_insertA, if_neg hq]
    rw [e1, e2]
    exact ⟨h1, h2, h3⟩

theorem I1core_claim_JSON (d : List (String × KeyType)) (a : List (String × ESValue))
    (b : List (String × JsonVal)) (c : List (String × List GeoPoint2D))
    (k : String) (v : JsonVal) (h : I1core d a b c)
    (hd : lookupA d k = none ∨ lookupA d k = some KeyType.JSON) :
    I1core (insertA d k KeyType.JSON) a (insertA b k v) c := by
  intro q
  obtain ⟨h1, h2, h3⟩ := h q
  obtain ⟨g1, g2, g3⟩ := h k
  by_cases hq : k = q
  · subst hq
    have e1 : lookupA (insertA d k KeyType.JSON) k = some KeyType.JSON := by
      rw [lookupA_insertA, if_pos rfl]
    have e2 : lookupA (insertA b k v) k = some v := by
      rw [lookupA_insertA, if_pos rfl]
    rw [e1, e2]
    refine ⟨?_, by simp, ?_⟩
    · constructor
      · intro h5; simp at h5
      · intro ha
        have hj := g1.mpr ha
        rcases hd with hd | hd <;> rw [hd] at hj <;> simp at hj
    · constructor
      · intro h5; simp at h5
      · intro hc
        have hj := g3.mpr hc
        rcases hd with hd | hd <;> rw [hd] at hj <;> simp at hj
  · have e1 : lookupA (insertA d k KeyType.JSON) q = lookupA d q := by
      rw [lookupA_insertA, if_neg hq]
    have e2 : lookupA (insertA b k v) q = lookupA b q := by
      rw [lookupA_insertA, if_neg hq]
    rw [e1, e2]
    exact ⟨h1, h2, h3⟩

theorem I1core_claim_GEO (d : List (String × KeyType)) (a : List (String × ESValue))
    (b : List (String × JsonVal)) (c : List (String × List GeoPoint2D))
    (k : String) (v : List GeoPoint2D) (h : I1core d a b c)
    (hd : lookupA d k = none ∨ lookupA d k = some KeyType.GEO) :
    I1core (insertA d k KeyType.GEO) a b (insertA c k v) := by
  intro q
  obtain ⟨h1, h2, h3⟩ := h q
  obtain ⟨g1, g2, g3⟩ := h k
  by_cases hq : k = q
  · subst hq
    have e1 : lookupA (insertA d k KeyType.GEO) k = some KeyType.GEO := by
      rw [lookupA_insertA, if_pos rfl]
    have e2 : lookupA (insertA c k v) k = some v := by
      rw [lookupA_insertA, if_pos rfl]
    rw [e1, e2]
    refine ⟨?_, ?_, by simp⟩
    · constructor
      · intro h5; simp at h5
      · intro ha
        have hj := g1.mpr ha
        rcases hd with hd | hd <;> rw [hd] at hj <;> simp at hj
    · constructor
      · intro h5; simp at h5
      · intro hb
        have hj := g2.mpr hb
        rcases hd with hd | hd <;> rw [hd] at hj <;> simp at hj
  · have e1 : lookupA (insertA d k KeyType.GEO) q = lookupA d q := by
      rw [lookupA_insertA, if_neg hq]
    have e2 : lookupA (insertA c k v) q = lookupA c q := by
      rw [lookupA_insertA, if_neg hq]
    rw [e1, e2]
    exact ⟨h1, h2, h3⟩

theorem I1core_update_json (d : List (String × KeyType)) (a : List (String × ESValue))
    (b : List (String × JsonVal)) (c : List (String × List GeoPoint2D))
    (k : String) (v : JsonVal) (h : I1core d a b c)
    (hb : (lookupA b k).isSome = true) :
    I1core d a (insertA b k v) c := by
  intro q
  obtain ⟨h1, h2, h3⟩ := h q
  by_cases hq : k = q
  · subst hq
    have e : lookupA (insertA b k v) k = some v := by
      rw [lookupA_insertA, if_pos rfl]
    rw [e]
    refine ⟨h1, ?_, h3⟩
    rw [h2, hb]
    simp
  · have e : lookupA (insertA b k v) q = lookupA b q := by
      rw [lookupA_insertA, if_neg hq]
    rw [e]
    exact ⟨h1, h2, h3⟩

theorem I1core_update_geo (d : List (String × KeyType)) (a : List (String × ESValue))
    (b : List (String × JsonVal)) (c : List (String × List GeoPoint2D))
    (k : String) (v : List GeoPoint2D) (h : I1core d a b c)
    (hc : (lookupA c k).isSome = true) :
    I1core d a b (insertA c k v) := by
  intro q
  obtain ⟨h1, h2, h3⟩ := h q
  by_cases hq : k = q
  · subst hq
    have e : lookupA (insertA c k v) k = some v := by
      rw [lookupA_insertA, if_pos rfl]
    rw [e]
    refine ⟨h1, h2, ?_⟩
    rw [h3, hc]
    simp
  · have e : lookupA (insertA c k v) q = lookupA c q := by
      rw [lookupA_insertA, if_neg hq]
    rw [e]
    exact ⟨h1, h2, h3⟩

theorem I1core_remove_KV (d : List (String × KeyType)) (a : List (String × ESValue))
    (b : List (String × JsonVal)) (c : List (String × List GeoPoint2D))
    (k : String) (h : I1core d a b c)
    (ha : (lookupA a k).isSome = true) :
    I1core (removeA d k) (removeA a k) b c := by
  intro q
  obtain ⟨h1, h2, h3⟩ := h q
  obtain ⟨g1, g2, g3⟩ := h k
  have hdk : lookupA d k = some KeyType.KV := g1.mpr ha
  by_cases hq : k = q
  · subst hq
    have e1 : lookupA (removeA d k) k = none := by rw [lookupA_removeA, if_pos rfl]
    have e2 : lookupA (removeA a k) k = none := by rw [lookupA_removeA, if_pos rfl]
    rw [e1, e2]
    refine ⟨by simp, ?_, ?_⟩
    · constructor
      · intro h5; simp at h5
      · intro hb
        have := h2.mpr hb
        rw [hdk] at this
        simp at this
    · constructor
      · intro h5; simp at h5
      · intro hc
        have := h3.mpr hc
        rw [hdk] at this
        simp at this
  · have e1 : lookupA (removeA d k) q = lookupA d q := by rw [lookupA_removeA, if_neg hq]
    have e2 : lookupA (removeA a k) q = lookupA a q := by rw [lookupA_removeA, if_neg hq]
    rw [e1, e2]
    exact ⟨h1, h2, h3⟩

theorem I1core_remove_GEO (d : List (String × KeyType)) (a : List (String × ESValue))
    (b : List (String × JsonVal)) (c : List (String × List GeoPoint2D))
    (k : String) (h : I1core d a b c)
    (hc : (lookupA c k).isSome = true) :
    I1core (removeA d k) a b (removeA c k) := by
  intro q
  obtain ⟨h1, h2, h3⟩ := h q
  obtain ⟨g1, g2, g3⟩ := h k
  have hdk : lookupA d k = some KeyType.GEO := g3.mpr hc
  by_cases hq : k = q
  · subst hq
    have e1 : lookupA (removeA d k) k = none := by rw [lookupA_removeA, if_pos rfl]
    have e2 : lookupA (removeA c k) k = none := by rw [lookupA_removeA, if_pos rfl]
    rw [e1, e2]
    refine ⟨?_, ?_, by simp⟩
    · constructor
      · intro h5; simp at h5
      · intro hx
        have := h1.mpr hx
        rw [hdk] at this
        simp at this
    · constructor
      · intro h5; simp at h5
      · intro hx
        have := h2.mpr hx
        rw [hdk] at this
        simp at this
  · have e1 : lookupA (removeA d k) q = lookupA d q := by rw [lookupA_removeA, if_neg hq]
    have e2 : lookupA (removeA c k) q = lookupA c q := by rw [lookupA_removeA, if_neg hq]
    rw [e1, e2]
    exact ⟨h1, h2, h3⟩

theorem I1core_remove_dir_absent (d : List (String × KeyType)) (a : List (String × ESValue))
    (b : List (String × JsonVal)) (c : List (String × List GeoPoint2D))
    (k : String) (h : I1core d a b c)
    (ha : lookupA a k = none)
    (hd : lookupA d k = none ∨ lookupA d k = some KeyType.KV) :
    I1core (removeA d k) a b c := by
  intro q
  obtain ⟨h1, h2, h3⟩ := h q
  obtain ⟨g1, g2, g3⟩ := h k
  have hdk : lookupA d k = none := by
    rcases hd with hd | hd
    · exact hd
    · have := g1.mp hd
      rw [ha] at this
      simp at this
  by_cases hq : k = q
  · subst hq
    have e1 : lookupA (removeA d k) k = none := by rw [lookupA_removeA, if_pos rfl]
    rw [e1]
    refine ⟨?_, ?_, ?_⟩
    · constructor
      · intro h5; simp at h5
      · intro h5; rw [ha] at h5; simp at h5
    · constructor
      · intro h5; simp at h5
      · intro h5
        have := h2.mpr h5
        rw [hdk] at this
        simp at this
    · constructor
      · intro h5; simp at h5
      · intro h5
        have := h3.mpr h5
        rw [hdk] at this
        simp at this
  · have e1 : lookupA (removeA d k) q = lookupA d q := by rw [lookupA_removeA, if_neg hq]
    rw [e1]
    exact ⟨h1, h2, h3⟩

theorem I1_empty : I1 emptyDB := by
  intro q
  refine ⟨?_, ?_, ?_⟩ <;> simp [emptyDB, lookupA]

theorem lookup_insert_both (g r : List (String × List GeoPoint2D)) (k q : String)
    (pm : List GeoPoint2D) (h : lookupA r q = lookupA g q) :
    lookupA (insertA r k pm) q = lookupA (insertA g k pm) q := by
  rw [lookupA_insertA, lookupA_insertA, h]

theorem lookup_remove_both (g r : List (String × List GeoPoint2D)) (k q : String)
    (h : lookupA r q = lookupA g q) :
    lookupA (removeA r k) q = lookupA (removeA g k) q := by
  rw [lookupA_removeA, lookupA_removeA, h]

theorem geoSync_step (db : DB) (op : GeoOp) (h : GeoSync db) :
    GeoSync (applyGeoOp db op) := by
  cases op with
  | add k items =>
    show GeoSync (geo_add k items db).2
    simp only [geo_add]
    split
    · intro q
      exact lookup_insert_both db.geo_btree db.geo_rtree k q _ (h q)
    · exact h
  | rem k tags =>
    show GeoSync (geo_remove k tags db).2
    simp only [geo_remove]
    split
    · split
      · exact h
      · split
        · intro q
          exact lookup_remove_both db.geo_btree db.geo_rtree k q (h q)
        · intro q
          exact lookup_insert_both db.geo_btree db.geo_rtree k q _ (h q)
    · exact h
  | del k =>
    show GeoSync (geo_del k db).2
    simp only [geo_del]
    split
    · intro q
      exact lookup_remove_both db.geo_btree db.geo_rtree k q (h q)
    · exact h

theorem geoSync_fold (ops : List GeoOp) :
    ∀ db : DB, GeoSync db → GeoSync (applyGeoOps ops db) := by
  induction ops with
  | nil => intro db h; exact h
  | cons op t ih =>
    intro db h
    exact ih (applyGeoOp db op) (geoSync_step db op h)

/-- C3: after any sequence of GEOADD, GEOREM and GEODEL commands starting
from the empty database, the spatial R-tree map and the point-set map hold
exactly the same entry (hence the same keys and, entry for entry, the same
points) at every key: invariants I2 and I3. -/
theorem geo_dual_index_sync (ops : List GeoOp) (k : String) :
    lookupA (applyGeoOps ops emptyDB).geo_rtree k =
      lookupA (applyGeoOps ops emptyDB).geo_btree k :=
  geoSync_fold ops emptyDB (fun _ => rfl) k

/-- C10: `jdel` always replies OK, removes only the JSON store entry and
unconditionally erases the keyspace-directory entry, leaving the KV store,
both geo structures and the expiration index untouched — so JDEL on a KV-
or GEO-family key keeps the stored value but erases its classification. -/
theorem jdel_unconditional (db : DB) (k : String) :
    (jdel k db).1 = Reply.ok ∧
    (jdel k db).2.json_btree = removeA db.json_btree k ∧
    (jdel k db).2.keys_map = removeA db.keys_map k ∧
    (jdel k db).2.kv_btree = db.kv_btree ∧
    (jdel k db).2.geo_btree = db.geo_btree ∧
    (jdel k db).2.geo_rtree = db.geo_rtree ∧
    (jdel k db).2.keys_rem_ex_hash = db.keys_rem_ex_hash :=
  ⟨rfl, rfl, rfl, rfl, rfl, rfl, rfl⟩

/-- C5 (amended): TTL returns -1 for a non-KV-classified key; with no
expiration entry it returns -1 when the key is present in the KV store but
-2 when it is absent (as after an expiry fires); with an entry it returns
the stored absolute epoch. -/
theorem ttl_cases (db : DB) (k : String) :
    (∀ F, lookupA db.keys_map k = some F → F ≠ KeyType.KV → ttl k db = Reply.int (-1)) ∧
    (is_key_valid_for_type db k KeyType.KV = true →
      ((lookupA db.keys_rem_ex_hash k = none → (lookupA db.kv_btree k).isSome = true →
          ttl k db = Reply.int (-1)) ∧
       (lookupA db.keys_rem_ex_hash k = none → lookupA db.kv_btree k = none →
          ttl k db = Reply.int (-2)) ∧
       (∀ t, lookupA db.keys_rem_ex_hash k = some t → ttl k db = Reply.int t))) := by
  constructor
  · intro F hF hne
    have hv : is_key_valid_for_type db k KeyType.KV = false := by
      unfold is_key_valid_for_type
      rw [hF]
      simp [hne]
    simp [ttl, hv]
  · intro hv
    refine ⟨?_, ?_, ?_⟩
    · intro hrem hkv
      obtain ⟨v, hv2⟩ := Option.isSome_iff_exists.mp hkv
      simp [ttl, hv, hrem, hv2]
    · intro hrem hkv
      simp [ttl, hv, hrem, hkv]
    · intro t ht
      simp [ttl, hv, ht]

theorem ttl_cases_witness : ttl "a" dbExpiry = Reply.int 42 :=
  ((ttl_cases dbExpiry "a").2 (by decide)).2.2 42 (by decide)

/-- C5 counterexample: on the empty database the key "a" is valid for KV
and has no expiration entry, yet TTL replies -2, not the -1 the claim
requires for an entirely absent key. -/
theorem ttl_absent_key_neg_two :
    lookupA emptyDB.keys_map "a" = none ∧
    lookupA emptyDB.keys_rem_ex_hash "a" = none ∧
    ttl "a" emptyDB = Reply.int (-2) ∧
    ttl "a" emptyDB ≠ Reply.int (-1) :=
  ⟨rfl, rfl, by decide, by decide⟩

/-- C2 (amended): for a key the directory classifies under family F, the
handlers that do check the directory reject a cross-family write with
WRONGTYPE and leave the whole state unchanged: INCRBY and GETSET when
F is not KV, JSET when F is not JSON, JMERGE and GEOADD when F is not GEO
(JMERGE checks the GEO family, so it also rejects JSON-classified keys
and accepts GEO ones); SET and JSET.RAW perform no family check at all. -/
theorem cross_family_writes_rejected (db : DB) (k : String) (F : KeyType)
    (v : ESValue) (n : Int) (items : List (String × JsonVal))
    (parsed : Option JsonVal) (gitems : List (Rat × Rat × String))
    (hF : lookupA db.keys_map k = some F) :
    (F ≠ KeyType.KV → incr_by k n db = (Reply.wrongType, db)) ∧
    (F ≠ KeyType.KV → get_set k v db = (Reply.wrongType, db)) ∧
    (F ≠ KeyType.JSON → jset k items db = (Reply.wrongType, db)) ∧
    (F ≠ KeyType.GEO → jmerge k parsed db = (Reply.wrongType, db)) ∧
    (F ≠ KeyType.GEO → geo_add k gitems db = (Reply.wrongType, db)) := by
  have hval : ∀ t : KeyType, F ≠ t → is_key_valid_for_type db k t = false := by
    intro t hne
    unfold is_key_valid_for_type
    rw [hF]
    simp [hne]
  refine ⟨?_, ?_, ?_, ?_, ?_⟩
  · intro hne; simp [incr_by, hval _ hne]
  · intro hne; simp [get_set, hval _ hne]
  · intro hne; simp [jset, hval _ hne]
  · intro hne; simp [jmerge, hval _ hne]
  · intro hne; simp [geo_add, hval _ hne]

theorem cross_family_writes_rejected_witness :
    incr_by "g" 1 dbGeoK = (Reply.wrongType, dbGeoK) ∧
    jset "g" [] dbGeoK = (Reply.wrongType, dbGeoK) := by
  have h := cross_family_writes_rejected dbGeoK "g" KeyType.GEO
    (ESValue.Int 0) 1 [] none [] (by decide)
  exact ⟨h.1 (by decide), h.2.2.1 (by decide)⟩

/-- C2 counterexample: after JSET classifies "k" as JSON, SET on "k"
succeeds with OK (no WRONGTYPE) and writes the KV store while the JSON
document is still present. -/
theorem set_skips_family_check :
    lookupA dbJsonK.keys_map "k" = some KeyType.JSON ∧
    (set "k" (ESValue.String "x") 0 0 dbJsonK).1 = Reply.ok ∧
    (set "k" (ESValue.String "x") 0 0 dbJsonK).1 ≠ Reply.wrongType ∧
    lookupA (set "k" (ESValue.String "x") 0 0 dbJsonK).2.kv_btree "k" =
      some (ESValue.String "x") ∧
    lookupA (set "k" (ESValue.String "x") 0 0 dbJsonK).2.json_btree "k" =
      some (JsonVal.obj [("a", JsonVal.str "v")]) :=
  ⟨by decide, rfl, by decide, by decide, rfl⟩

/-- C6 (amended): the INCRBY case analysis, with i64 sums wrapping on
overflow: absent key stores Int(n) and replies the integer n; a parseable
String stores the canonical text of the wrapped sum and replies it as a
bulk string; an unparseable String replies the conversion error leaving
the state unchanged; an Int value stores and replies the wrapped sum. -/
theorem incr_by_cases (db : DB) (k : String) (n : Int)
    (hv : is_key_valid_for_type db k KeyType.KV = true) :
    (lookupA db.kv_btree k = none →
      incr_by k n db =
        (Reply.int n,
         { db with kv_btree := insertA db.kv_btree k (ESValue.Int n) })) ∧
    (∀ s d, lookupA db.kv_btree k = some (ESValue.String s) → parseI64 s = some d →
      incr_by k n db =
        (Reply.str (i64ToString (wrap64 (d + n))),
         { db with kv_btree :=
             insertA db.kv_btree k (ESValue.String (i64ToString (wrap64 (d + n)))) })) ∧
    (∀ s, lookupA db.kv_btree k = some (ESValue.String s) → parseI64 s = none →
      incr_by k n db = (Reply.err "ERR string cannot be represented as integer", db)) ∧
    (∀ i, lookupA db.kv_btree k = some (ESValue.Int i) →
      incr_by k n db =
        (Reply.int (wrap64 (i + n)),
         { db with kv_btree := insertA db.kv_btree k (ESValue.Int (wrap64 (i + n))) })) := by
  refine ⟨?_, ?_, ?_, ?_⟩
  · intro h0; simp [incr_by, hv, h0]
  · intro s d h0 h1; simp [incr_by, hv, h0, h1]
  · intro s h0 h1; simp [incr_by, hv, h0, h1]
  · intro i h0; simp [incr_by, hv, h0]

theorem incr_by_cases_witness :
    incr_by "k" 3 dbInt5 =
      (Reply.int (wrap64 (5 + 3)),
       { dbInt5 with kv_btree := insertA dbInt5.kv_btree "k" (ESValue.Int (wrap64 (5 + 3))) }) :=
  (incr_by_cases dbInt5 "k" 3 (by decide)).2.2.2 5 (by decide)

/-- C6 counterexample: INCRBY on a key holding the maximal i64 stores and
replies the wrapped value, not the mathematical sum the claim states. -/
theorem incr_by_overflow_wraps :
    lookupA dbMax.kv_btree "k" = some (ESValue.Int 9223372036854775807) ∧
    (incr_by "k" 1 dbMax).1 = Reply.int (-9223372036854775808) ∧
    (incr_by "k" 1 dbMax).1 ≠ Reply.int (9223372036854775807 + 1) ∧
    lookupA (incr_by "k" 1 dbMax).2.kv_btree "k" =
      some (ESValue.Int (-9223372036854775808)) :=
  ⟨by decide, by decide, by decide, by decide⟩

/-- C7 (amended): INCRBY K 0 creates Int(0) for an absent key, leaves an
in-range Int value (and the whole state) unchanged, leaves an unparseable
String untouched, and rewrites a parseable String to the canonical decimal
text of the same number — a no-op exactly when the text was already
canonical. -/
theorem incr_by_zero_cases (db : DB) (k : String)
    (hv : is_key_valid_for_type db k KeyType.KV = true) :
    (lookupA db.kv_btree k = none →
      incr_by k 0 db =
        (Reply.int 0, { db with kv_btree := insertA db.kv_btree k (ESValue.Int 0) })) ∧
    (∀ i, lookupA db.kv_btree k = some (ESValue.Int i) → InI64 i →
      incr_by k 0 db = (Reply.int i, db)) ∧
    (∀ s d, lookupA db.kv_btree k = some (ESValue.String s) → parseI64 s = some d →
      ((incr_by k 0 db).2.kv_btree =
         insertA db.kv_btree k (ESValue.String (i64ToString d)) ∧
       (s = i64ToString d → (incr_by k 0 db).2 = db))) ∧
    (∀ s, lookupA db.kv_btree k = some (ESValue.String s) → parseI64 s = none →
      (incr_by k 0 db).2 = db) := by
  refine ⟨?_, ?_, ?_, ?_⟩
  · intro h0; simp [incr_by, hv, h0]
  · intro i h0 hi
    have hw : wrap64 i = i := wrap64_eq_self i hi
    simp [incr_by, hv, h0, hw, insertA_eq_self db.kv_btree k _ h0]
  · intro s d h0 h1
    have hd := parseI64_range s d h1
    have hw : wrap64 d = d := wrap64_eq_self d hd
    constructor
    · simp [incr_by, hv, h0, h1, hw]
    · intro hs
      have he : insertA db.kv_btree k (ESValue.String (i64ToString d)) = db.kv_btree := by
        rw [← hs]
        exact insertA_eq_self _ _ _ h0
      simp [incr_by, hv, h0, h1, hw, he]
  · intro s h0 h1; simp [incr_by, hv, h0, h1]

theorem incr_by_zero_witness :
    incr_by "k" 0 dbInt5 = (Reply.int 5, dbInt5) :=
  ((incr_by_zero_cases dbInt5 "k" (by decide)).2.1) 5 (by decide) (by decide)

/-- C7 counterexample: the stored text "007" parses as 7, so INCRBY K 0
rewrites it to the canonical "7" — the exact textual form changes. -/
theorem incr_by_zero_rewrites_noncanonical :
    lookupA db007.kv_btree "k" = some (ESValue.String "007") ∧
    lookupA (incr_by "k" 0 db007).2.kv_btree "k" = some (ESValue.String "7") ∧
    (ESValue.String "7" ≠ ESValue.String "007") :=
  ⟨by decide, by decide, by decide⟩

/-- C8 (amended): GETSET rejects non-KV keys with WRONGTYPE and no state
change; otherwise it always stores V and claims the key; it returns the
empty string for an absent key and the prior text for a String value, but
for an Int prior value it replies "ERR value is not a string" (still
having stored V and without bumping the mutation counter). -/
theorem get_set_cases (db : DB) (k : String) (v : ESValue) :
    (∀ F, lookupA db.keys_map k = some F → F ≠ KeyType.KV →
      get_set k v db = (Reply.wrongType, db)) ∧
    (is_key_valid_for_type db k KeyType.KV = true →
      ((lookupA db.kv_btree k = none →
         get_set k v db =
           (Reply.str "",
            { db with kv_btree := insertA db.kv_btree k v,
                      keys_map := insertA db.keys_map k KeyType.KV,
                      mutation_count := db.mutation_count + 1 })) ∧
       (∀ s, lookupA db.kv_btree k = some (ESValue.String s) →
         get_set k v db =
           (Reply.str s,
            { db with kv_btree := insertA db.kv_btree k v,
                      keys_map := insertA db.keys_map k KeyType.KV,
                      mutation_count := db.mutation_count + 1 })) ∧
       (∀ i, lookupA db.kv_btree k = some (ESValue.Int i) →
         get_set k v db =
           (Reply.err "ERR value is not a string",
            { db with kv_btree := insertA db.kv_btree k v,
                      keys_map := insertA db.keys_map k KeyType.KV })))) := by
  constructor
  · intro F hF hne
    have hval : is_key_valid_for_type db k KeyType.KV = false := by
      unfold is_key_valid_for_type
      rw [hF]
      simp [hne]
    simp [get_set, hval]
  · intro hv
    refine ⟨?_, ?_, ?_⟩
    · intro h0; simp [get_set, hv, h0, insert_key]
    · intro s h0; simp [get_set, hv, h0, insert_key]
    · intro i h0; simp [get_set, hv, h0, insert_key]

theorem get_set_cases_witness :
    get_set "k" (ESValue.String "x") db007 =
      (Reply.str "007",
       { db007 with kv_btree := insertA db007.kv_btree "k" (ESValue.String "x"),
                    keys_map := insertA db007.keys_map "k" KeyType.KV,
                    mutation_count := db007.mutation_count + 1 }) :=
  ((get_set_cases db007 "k" (ESValue.String "x")).2 (by decide)).2.1 "007" (by decide)

/-- C8 counterexample: with prior value Int(5), GETSET replies an error,
not the prior value, while still overwriting the store. -/
theorem get_set_int_prior_error :
    lookupA dbInt5.kv_btree "k" = some (ESValue.Int 5) ∧
    (get_set "k" (ESValue.String "x") dbInt5).1 = Reply.err "ERR value is not a string" ∧
    (get_set "k" (ESValue.String "x") dbInt5).1 ≠ Reply.str "5" ∧
    (get_set "k" (ESValue.String "x") dbInt5).1 ≠ Reply.int 5 ∧
    lookupA (get_set "k" (ESValue.String "x") dbInt5).2.kv_btree "k" =
      some (ESValue.String "x") :=
  ⟨by decide, by decide, by decide, by decide, by decide⟩

/-- C1 (amended): the handlers that consult the keyspace directory —
GETSET, DEL, JSET, GEOADD, GEOREM, GEODEL and FLUSHDB — preserve the
single-family invariant I1; SET, INCRBY (on an absent key), JSET.RAW,
JMERGE and JDEL do not consult or update it consistently and can break it,
and load preserves it only for snapshots with pairwise-disjoint stores. -/
theorem single_family_preserved (db : DB) (k : String) (v : ESValue)
    (items : List (String × JsonVal)) (gitems : List (Rat × Rat × String))
    (tags : List String) (h : I1 db) :
    I1 (get_set k v db).2 ∧ I1 (del k db).2 ∧ I1 (jset k items db).2 ∧
    I1 (geo_add k gitems db).2 ∧ I1 (geo_remove k tags db).2 ∧
    I1 (geo_del k db).2 ∧ I1 (clear_db db) := by
  refine ⟨?_, ?_, ?_, ?_, ?_, ?_, ?_⟩
  · -- GETSET
    by_cases hv : is_key_valid_for_type db k KeyType.KV = true
    · have hd := (is_key_valid_iff db k KeyType.KV).mp hv
      rcases h0 : lookupA db.kv_btree k with _ | val
      · simp only [get_set, hv, if_true, h0]
        exact I1core_claim_KV _ _ _ _ k v h hd
      · rcases val with s | i
        · simp only [get_set, hv, if_true, h0]
          exact I1core_claim_KV _ _ _ _ k v h hd
        · simp only [get_set, hv, if_true, h0]
          exact I1core_claim_KV _ _ _ _ k v h hd
    · simp only [get_set, hv, if_false]
      exact h
  · -- DEL
    by_cases hv : is_key_valid_for_type db k KeyType.KV = true
    · have hd := (is_key_valid_iff db k KeyType.KV).mp hv
      rcases h0 : lookupA db.kv_btree k with _ | val
      · simp only [del, hv, if_true, h0]
        exact I1core_remove_dir_absent _ _ _ _ k h h0 hd
      · simp only [del, hv, if_true, h0]
        exact I1core_remove_KV _ _ _ _ k h (by rw [h0]; rfl)
    · simp only [del, hv, if_false]
      exact h
  · -- JSET
    by_cases hv : is_key_valid_for_type db k KeyType.JSON = true
    · have hd := (is_key_valid_iff db k KeyType.JSON).mp hv
      rcases h0 : lookupA db.json_btree k with _ | j
      · simp only [jset, hv, if_true, h0]
        split
        · exact h
        · exact I1core_claim_JSON _ _ _ _ k _ h hd
      · simp only [jset, hv, if_true, h0]
        split
        · exact I1core_update_json _ _ _ _ k _ h (by rw [h0]; rfl)
        · exact I1core_update_json _ _ _ _ k _ h (by rw [h0]; rfl)
    · simp only [jset, hv, if_false]
      exact h
  · -- GEOADD
    by_cases hv : is_key_valid_for_type db k KeyType.GEO = true
    · have hd := (is_key_valid_iff db k KeyType.GEO).mp hv
      simp only [geo_add, hv, if_true]
      exact I1core_claim_GEO _ _ _ _ k _ h hd
    · simp only [geo_add, hv, if_false]
      exact h
  · -- GEOREM
    simp only [geo_remove]
    split
    · split
      · exact h
      · rename_i pts hpts
        split
        · exact I1core_remove_GEO _ _ _ _ k h (by rw [hpts]; rfl)
        · exact I1core_update_geo _ _ _ _ k _ h (by rw [hpts]; rfl)
    · exact h
  · -- GEODEL
    by_cases hg : ((lookupA db.geo_rtree k).isSome && (lookupA db.geo_btree k).isSome) = true
    · have hc : (lookupA db.geo_btree k).isSome = true := by
        have := hg
        rw [Bool.and_eq_true] at this
        exact this.2
      simp only [geo_del, hg, if_true]
      exact I1core_remove_GEO _ _ _ _ k h hc
    · simp only [geo_del, hg, if_false]
      exact h
  · -- FLUSHDB / clear_db
    intro q
    refine ⟨?_, ?_, ?_⟩ <;> simp [clear_db, lookupA]

theorem single_family_preserved_witness :
    I1 (get_set "k" (ESValue.Int 1) emptyDB).2 :=
  (single_family_preserved emptyDB "k" (ESValue.Int 1) [] [] [] I1_empty).1

/-- C1 counterexample: the empty database satisfies I1, but INCRBY on an
absent key inserts into the KV store without creating a directory entry,
so the directory no longer names the store holding the key. -/
theorem incr_by_breaks_single_family :
    I1 emptyDB ∧ ¬ I1 (incr_by "a" 1 emptyDB).2 :=
  ⟨I1_empty, fun hI => absurd ((hI "a").1.mpr rfl) (by decide)⟩

theorem is_key_valid_none (db : DB) (k : String) (t : KeyType)
    (h : lookupA db.keys_map k = none) : is_key_valid_for_type db k t = true := by
  unfold is_key_valid_for_type
  rw [h]

theorem geo_phase_eq :
    ∀ (L : List (String × List GeoPoint2D)) (db : DB),
      (keysOf L).Nodup →
      (∀ p ∈ L, lookupA db.keys_map p.1 = none) →
      (∀ p ∈ L, lookupA db.geo_btree p.1 = none) →
      L.foldl geo_load_step db =
        { db with geo_btree := db.geo_btree ++ L,
                  keys_map := db.keys_map ++ L.map (fun p => (p.1, KeyType.GEO)) } := by
  intro L
  induction L with
  | nil => intro db _ _ _; simp
  | cons p t ih =>
    intro db hnd hk hg
    have hndt : (keysOf t).Nodup := (List.nodup_cons.mp hnd).2
    have hpt : p.1 ∉ keysOf t := (List.nodup_cons.mp hnd).1
    have hkp : lookupA db.keys_map p.1 = none := hk p (List.mem_cons_self p t)
    have hgp : lookupA db.geo_btree p.1 = none := hg p (List.mem_cons_self p t)
    have hvalid : is_key_valid_for_type
        { db with geo_btree := insertA db.geo_btree p.1 p.2 } p.1 KeyType.GEO = true :=
      is_key_valid_none _ p.1 KeyType.GEO hkp
    have step : geo_load_step db p =
        { db with geo_btree := db.geo_btree ++ [(p.1, p.2)],
                  keys_map := db.keys_map ++ [(p.1, KeyType.GEO)] } := by
      unfold geo_load_step insert_key_with_deletion insert_key
      rw [if_pos hvalid]
      dsimp only
      rw [insertA_append_of_none db.geo_btree p.1 p.2 hgp]
      rw [insertA_append_of_none db.keys_map p.1 KeyType.GEO hkp]
    have hk2 : ∀ q ∈ t, lookupA (db.keys_map ++ [(p.1, KeyType.GEO)]) q.1 = none := by
      intro q hq
      have h2 : ¬ p.1 = q.1 := fun he =>
        hpt (by rw [he]; exact List.mem_map_of_mem Prod.fst hq)
      rw [lookupA_append_of_none db.keys_map _ q.1 (hk q (List.mem_cons_of_mem p hq))]
      simp [lookupA, h2]
    have hg2 : ∀ q ∈ t, lookupA (db.geo_btree ++ [(p.1, p.2)]) q.1 = none := by
      intro q hq
      have h2 : ¬ p.1 = q.1 := fun he =>
        hpt (by rw [he]; exact List.mem_map_of_mem Prod.fst hq)
      rw [lookupA_append_of_none db.geo_btree _ q.1 (hg q (List.mem_cons_of_mem p hq))]
      simp [lookupA, h2]
    rw [List.foldl_cons, step,
        ih { db with geo_btree := db.geo_btree ++ [(p.1, p.2)],
                     keys_map := db.keys_map ++ [(p.1, KeyType.GEO)] } hndt hk2 hg2]
    dsimp only
    rw [List.append_assoc, List.append_assoc, List.map_cons]
    rfl

theorem json_phase_eq :
    ∀ (L : List (String × JsonVal)) (db : DB),
      (keysOf L).Nodup →
      (∀ p ∈ L, lookupA db.keys_map p.1 = none) →
      (∀ p ∈ L, lookupA db.json_btree p.1 = none) →
      L.foldl json_load_step db =
        { db with json_btree := db.json_btree ++ L,
                  keys_map := db.keys_map ++ L.map (fun p => (p.1, KeyType.JSON)) } := by
  intro L
  induction L with
  | nil => intro db _ _ _; simp
  | cons p t ih =>
    intro db hnd hk hg
    have hndt : (keysOf t).Nodup := (List.nodup_cons.mp hnd).2
    have hpt : p.1 ∉ keysOf t := (List.nodup_cons.mp hnd).1
    have hkp : lookupA db.keys_map p.1 = none := hk p (List.mem_cons_self p t)
    have hgp : lookupA db.json_btree p.1 = none := hg p (List.mem_cons_self p t)
    have hvalid : is_key_valid_for_type
        { db with json_btree := insertA db.json_btree p.1 p.2 } p.1 KeyType.JSON = true :=
      is_key_valid_none _ p.1 KeyType.JSON hkp
    have step : json_load_step db p =
        { db with json_btree := db.json_btree ++ [(p.1, p.2)],
                  keys_map := db.keys_map ++ [(p.1, KeyType.JSON)] } := by
      unfold json_load_step insert_key_with_deletion insert_key
      rw [if_pos hvalid]
      dsimp only
      rw [insertA_append_of_none db.json_btree p.1 p.2 hgp]
      rw [insertA_append_of_none db.keys_map p.1 KeyType.JSON hkp]
    have hk2 : ∀ q ∈ t, lookupA (db.keys_map ++ [(p.1, KeyType.JSON)]) q.1 = none := by
      intro q hq
      have h2 : ¬ p.1 = q.1 := fun he =>
        hpt (by rw [he]; exact List.mem_map_of_mem Prod.fst hq)
      rw [lookupA_append_of_none db.keys_map _ q.1 (hk q (List.mem_cons_of_mem p hq))]
      simp [lookupA, h2]
    have hg2 : ∀ q ∈ t, lookupA (db.json_btree ++ [(p.1, p.2)]) q.1 = none := by
      intro q hq
      have h2 : ¬ p.1 = q.1 := fun he =>
        hpt (by rw [he]; exact List.mem_map_of_mem Prod.fst hq)
      rw [lookupA_append_of_none db.json_btree _ q.1 (hg q (List.mem_cons_of_mem p hq))]
      simp [lookupA, h2]
    rw [List.foldl_cons, step,
        ih { db with json_btree := db.json_btree ++ [(p.1, p.2)],
                     keys_map := db.keys_map ++ [(p.1, KeyType.JSON)] } hndt hk2 hg2]
    dsimp only
    rw [List.append_assoc, List.append_assoc, List.map_cons]
    rfl

theorem kv_phase_eq :
    ∀ (L : List (String × ESValue)) (db : DB),
      (keysOf L).Nodup →
      (∀ p ∈ L, lookupA db.keys_map p.1 = none) →
      (∀ p ∈ L, lookupA db.kv_btree p.1 = none) →
      L.foldl kv_load_step db =
        { db with kv_btree := db.kv_btree ++ L,
                  keys_map := db.keys_map ++ L.map (fun p => (p.1, KeyType.KV)) } := by
  intro L
  induction L with
  | nil => intro db _ _ _; simp
  | cons p t ih =>
    intro db hnd hk hg
    have hndt : (keysOf t).Nodup := (List.nodup_cons.mp hnd).2
    have hpt : p.1 ∉ keysOf t := (List.nodup_cons.mp hnd).1
    have hkp : lookupA db.keys_map p.1 = none := hk p (List.mem_cons_self p t)
    have hgp : lookupA db.kv_btree p.1 = none := hg p (List.mem_cons_self p t)
    have hvalid : is_key_valid_for_type
        { db with kv_btree := insertA db.kv_btree p.1 p.2 } p.1 KeyType.KV = true :=
      is_key_valid_none _ p.1 KeyType.KV hkp
    have step : kv_load_step db p =
        { db with kv_btree := db.kv_btree ++ [(p.1, p.2)],
                  keys_map := db.keys_map ++ [(p.1, KeyType.KV)] } := by
      unfold kv_load_step insert_key_with_deletion insert_key
      rw [if_pos hvalid]
      dsimp only
      rw [insertA_append_of_none db.kv_btree p.1 p.2 hgp]
      rw [insertA_append_of_none db.keys_map p.1 KeyType.KV hkp]
    have hk2 : ∀ q ∈ t, lookupA (db.keys_map ++ [(p.1, KeyType.KV)]) q.1 = none := by
      intro q hq
      have h2 : ¬ p.1 = q.1 := fun he =>
        hpt (by rw [he]; exact List.mem_map_of_mem Prod.fst hq)
      rw [lookupA_append_of_none db.keys_map _ q.1 (hk q (List.mem_cons_of_mem p hq))]
      simp [lookupA, h2]
    have hg2 : ∀ q ∈ t, lookupA (db.kv_btree ++ [(p.1, p.2)]) q.1 = none := by
      intro q hq
      have h2 : ¬ p.1 = q.1 := fun he =>
        hpt (by rw [he]; exact List.mem_map_of_mem Prod.fst hq)
      rw [lookupA_append_of_none db.kv_btree _ q.1 (hg q (List.mem_cons_of_mem p hq))]
      simp [lookupA, h2]
    rw [List.foldl_cons, step,
        ih { db with kv_btree := db.kv_btree ++ [(p.1, p.2)],
                     keys_map := db.keys_map ++ [(p.1, KeyType.KV)] } hndt hk2 hg2]
    dsimp only
    rw [List.append_assoc, List.append_assoc, List.map_cons]
    rfl

theorem rtree_phase_eq :
    ∀ (L : List (String × List GeoPoint2D)) (db : DB),
      (keysOf L).Nodup →
      (∀ p ∈ L, lookupA db.geo_rtree p.1 = none) →
      L.foldl rtree_load_step db = { db with geo_rtree := db.geo_rtree ++ L } := by
  intro L
  induction L with
  | nil => intro db _ _; simp
  | cons p t ih =>
    intro db hnd hr
    have hndt : (keysOf t).Nodup := (List.nodup_cons.mp hnd).2
    have hpt : p.1 ∉ keysOf t := (List.nodup_cons.mp hnd).1
    have hrp : lookupA db.geo_rtree p.1 = none := hr p (List.mem_cons_self p t)
    have step : rtree_load_step db p =
        { db with geo_rtree := db.geo_rtree ++ [(p.1, p.2)] } := by
      unfold rtree_load_step
      rw [insertA_append_of_none db.geo_rtree p.1 p.2 hrp]
    have hr2 : ∀ q ∈ t, lookupA (db.geo_rtree ++ [(p.1, p.2)]) q.1 = none := by
      intro q hq
      have h2 : ¬ p.1 = q.1 := fun he =>
        hpt (by rw [he]; exact List.mem_map_of_mem Prod.fst hq)
      rw [lookupA_append_of_none db.geo_rtree _ q.1 (hr q (List.mem_cons_of_mem p hq))]
      simp [lookupA, h2]
    rw [List.foldl_cons, step,
        ih { db with geo_rtree := db.geo_rtree ++ [(p.1, p.2)] } hndt hr2]
    dsimp only
    rw [List.append_assoc]
    rfl

/-- C4 (amended): for a database whose three stores have no duplicate and
pairwise-disjoint keys, saving and then loading into an empty database
restores the KV, JSON and geo stores exactly, and rebuilds each geo key's
spatial index to hold exactly the points of its loaded point set. -/
theorem snapshot_round_trip (db : DB)
    (h1 : (keysOf db.kv_btree).Nodup) (h2 : (keysOf db.json_btree).Nodup)
    (h3 : (keysOf db.geo_btree).Nodup)
    (d1 : ∀ s ∈ keysOf db.json_btree, s ∉ keysOf db.geo_btree)
    (d2 : ∀ s ∈ keysOf db.kv_btree, s ∉ keysOf db.geo_btree)
    (d3 : ∀ s ∈ keysOf db.kv_btree, s ∉ keysOf db.json_btree) :
    (load_db (save_db db) emptyDB).kv_btree = db.kv_btree ∧
    (load_db (save_db db) emptyDB).json_btree = db.json_btree ∧
    (load_db (save_db db) emptyDB).geo_btree = db.geo_btree ∧
    (load_db (save_db db) emptyDB).geo_rtree = db.geo_btree := by
  have e1 : db.geo_btree.foldl geo_load_step emptyDB =
      { keys_map := db.geo_btree.map (fun p => (p.1, KeyType.GEO)), kv_btree := [],
        json_btree := [], geo_btree := db.geo_btree, geo_rtree := [],
        keys_rem_ex_hash := [], deleted_keys_list := [], mutation_count := 0 } := by
    rw [geo_phase_eq db.geo_btree emptyDB h3 (fun p _ => rfl) (fun p _ => rfl)]
    rfl
  have hfreshJ : ∀ p ∈ db.json_btree,
      lookupA (db.geo_btree.map (fun q => (q.1, KeyType.GEO))) p.1 = none := by
    intro p hp
    rw [lookupA_eq_none_iff, keysOf_mapval]
    exact d1 p.1 (List.mem_map_of_mem Prod.fst hp)
  have e2 : db.json_btree.foldl json_load_step
      { keys_map := db.geo_btree.map (fun p => (p.1, KeyType.GEO)), kv_btree := [],
        json_btree := [], geo_btree := db.geo_btree, geo_rtree := [],
        keys_rem_ex_hash := [], deleted_keys_list := [], mutation_count := 0 } =
      { keys_map := db.geo_btree.map (fun p => (p.1, KeyType.GEO))
          ++ db.json_btree.map (fun p => (p.1, KeyType.JSON)), kv_btree := [],
        json_btree := db.json_btree, geo_btree := db.geo_btree, geo_rtree := [],
        keys_rem_ex_hash := [], deleted_keys_list := [], mutation_count := 0 } := by
    rw [json_phase_eq db.json_btree
      { keys_map := db.geo_btree.map (fun p => (p.1, KeyType.GEO)), kv_btree := [],
        json_btree := [], geo_btree := db.geo_btree, geo_rtree := [],
        keys_rem_ex_hash := [], deleted_keys_list := [], mutation_count := 0 } h2 hfreshJ (fun p _ => rfl)]
    rfl
  have hfreshK : ∀ p ∈ db.kv_btree,
      lookupA (db.geo_btree.map (fun q => (q.1, KeyType.GEO))
        ++ db.json_btree.map (fun q => (q.1, KeyType.JSON))) p.1 = none := by
    intro p hp
    have hA : lookupA (db.geo_btree.map (fun q => (q.1, KeyType.GEO))) p.1 = none := by
      rw [lookupA_eq_none_iff, keysOf_mapval]
      exact d2 p.1 (List.mem_map_of_mem Prod.fst hp)
    have hB : lookupA (db.json_btree.map (fun q => (q.1, KeyType.JSON))) p.1 = none := by
      rw [lookupA_eq_none_iff, keysOf_mapval]
      exact d3 p.1 (List.mem_map_of_mem Prod.fst hp)
    rw [lookupA_append_of_none _ _ _ hA]
    exact hB
  have e3 : db.kv_btree.foldl kv_load_step
      { keys_map := db.geo_btree.map (fun p => (p.1, KeyType.GEO))
          ++ db.json_btree.map (fun p => (p.1, KeyType.JSON)), kv_btree := [],
        json_btree := db.json_btree, geo_btree := db.geo_btree, geo_rtree := [],
        keys_rem_ex_hash := [], deleted_keys_list := [], mutation_count := 0 } =
      { keys_map := (db.geo_btree.map (fun p => (p.1, KeyType.GEO))
          ++ db.json_btree.map (fun p => (p.1, KeyType.JSON)))
          ++ db.kv_btree.map (fun p => (p.1, KeyType.KV)),
        kv_btree := db.kv_btree,
        json_btree := db.json_btree, geo_btree := db.geo_btree, geo_rtree := [],
        keys_rem_ex_hash := [], deleted_keys_list := [], mutation_count := 0 } := by
    rw [kv_phase_eq db.kv_btree
      { keys_map := db.geo_btree.map (fun p => (p.1, KeyType.GEO))
          ++ db.json_btree.map (fun p => (p.1, KeyType.JSON)), kv_btree := [],
        json_btree := db.json_btree, geo_btree := db.geo_btree, geo_rtree := [],
        keys_rem_ex_hash := [], deleted_keys_list := [], mutation_count := 0 } h1 hfreshK (fun p _ => rfl)]
    rfl
  have e4 : db.geo_btree.foldl rtree_load_step
      { keys_map := (db.geo_btree.map (fun p => (p.1, KeyType.GEO))
          ++ db.json_btree.map (fun p => (p.1, KeyType.JSON)))
          ++ db.kv_btree.map (fun p => (p.1, KeyType.KV)),
        kv_btree := db.kv_btree,
        json_btree := db.json_btree, geo_btree := db.geo_btree, geo_rtree := [],
        keys_rem_ex_hash := [], deleted_keys_list := [], mutation_count := 0 } =
      { keys_map := (db.geo_btree.map (fun p => (p.1, KeyType.GEO))
          ++ db.json_btree.map (fun p => (p.1, KeyType.JSON)))
          ++ db.kv_btree.map (fun p => (p.1, KeyType.KV)),
        kv_btree := db.kv_btree,
        json_btree := db.json_btree, geo_btree := db.geo_btree,
        geo_rtree := db.geo_btree,
        keys_rem_ex_hash := [], deleted_keys_list := [], mutation_count := 0 } := by
    rw [rtree_phase_eq db.geo_btree
      { keys_map := (db.geo_btree.map (fun p => (p.1, KeyType.GEO))
          ++ db.json_btree.map (fun p => (p.1, KeyType.JSON)))
          ++ db.kv_btree.map (fun p => (p.1, KeyType.KV)),
        kv_btree := db.kv_btree,
        json_btree := db.json_btree, geo_btree := db.geo_btree, geo_rtree := [],
        keys_rem_ex_hash := [], deleted_keys_list := [], mutation_count := 0 } h3 (fun p _ => rfl)]
    rfl
  have emain : load_db (save_db db) emptyDB =
      { keys_map := (db.geo_btree.map (fun p => (p.1, KeyType.GEO))
          ++ db.json_btree.map (fun p => (p.1, KeyType.JSON)))
          ++ db.kv_btree.map (fun p => (p.1, KeyType.KV)),
        kv_btree := db.kv_btree,
        json_btree := db.json_btree, geo_btree := db.geo_btree,
        geo_rtree := db.geo_btree,
        keys_rem_ex_hash := [], deleted_keys_list := [], mutation_count := 0 } := by
    unfold load_db save_db
    dsimp only
    rw [e1, e2, e3]
    dsimp only
    rw [e4]
  rw [emain]
  exact ⟨rfl, rfl, rfl, rfl⟩

theorem snapshot_round_trip_witness :
    (load_db (save_db dbDisjoint) emptyDB).kv_btree = dbDisjoint.kv_btree ∧
    (load_db (save_db dbDisjoint) emptyDB).json_btree = dbDisjoint.json_btree ∧
    (load_db (save_db dbDisjoint) emptyDB).geo_btree = dbDisjoint.geo_btree ∧
    (load_db (save_db dbDisjoint) emptyDB).geo_rtree = dbDisjoint.geo_btree :=
  snapshot_round_trip dbDisjoint (by decide) (by decide) (by decide)
    (by decide) (by decide) (by decide)

/-- C4 counterexample: the reachable state with "k" in both the KV and
JSON stores does not round-trip — the load's takeover deletes the JSON
entry, so the restored JSON store differs from the original. -/
theorem round_trip_fails_on_overlap :
    (lookupA dbOverlap.kv_btree "k").isSome = true ∧
    (lookupA dbOverlap.json_btree "k").isSome = true ∧
    (lookupA (load_db (save_db dbOverlap) emptyDB).json_btree "k").isNone = true ∧
    (load_db (save_db dbOverlap) emptyDB).json_btree ≠ dbOverlap.json_btree := by
  refine ⟨by decide, by decide, by decide, ?_⟩
  intro h
  have h1 : (lookupA (load_db (save_db dbOverlap) emptyDB).json_btree "k").isNone = true := by
    decide
  have h2 : (lookupA dbOverlap.json_btree "k").isSome = true := by decide
  rw [h] at h1
  rw [Option.isNone_iff_eq_none] at h1
  rw [h1] at h2
  simp at h2
